import Mathlib

/-!
Verification development for the ExaChat client request pipeline:
the conversation-history truncator, the streaming response aggregator,
the rate-limit (429) wait-time parser, and the provider endpoint router,
as implemented in the chat fetch module (`fetchResponse` and
`truncateConversationHistory`).
-/

namespace ExaChat

/-- A chat message as used by the client pipeline.  The fields beyond
`id`, `role`, `content` are the optional streaming-related fields the
aggregator writes (`citations`, `completed`, `startTime`, `endTime`, `tps`).
Citations are opaque records to the client; we keep the one field the
examples use. -/
structure Citation where
  url : String
deriving DecidableEq, Repr

structure Message where
  id : String
  role : String
  content : String
  citations : Option (List Citation) := none
  completed : Bool := false
  startTime : Option Int := none
  endTime : Option Int := none
  tps : Option ℚ := none
deriving DecidableEq, Repr

/-- Number of retained message PAIRS for LLM providers (`K_MESSAGE_PAIRS`
in the source). -/
def K_MESSAGE_PAIRS : Nat := 5

/-- Embedding of `truncateConversationHistory(messages, modelId)`.

For `modelId === 'exa'`: take the last 3 messages (`slice(-3)`); if that
slice is non-empty and its last element is not a user message, overwrite
the slice's last slot with the most recent user message of the whole list
(when one exists).  For every other model: if the list has at most
`K_MESSAGE_PAIRS * 2` messages return it unchanged, otherwise keep the
last `K_MESSAGE_PAIRS * 2` messages (`slice(-maxMessages)`).

`slice(-n)` on a list of length `len` is `drop (len - n)`, and writing
index `length-1` of a non-empty list is `dropLast ++ [·]`. -/
def truncateConversationHistory (messages : List Message) (modelId : String) :
    List Message :=
  if modelId = "exa" then
    let recentMessages := messages.drop (messages.length - 3)
    match recentMessages.getLast? with
    | none => recentMessages
    | some lastMsg =>
      if lastMsg.role ≠ "user" then
        match (messages.filter (fun msg => msg.role == "user")).getLast? with
        | some lastUser => recentMessages.dropLast ++ [lastUser]
        | none => recentMessages
      else recentMessages
  else
    let maxMessages := K_MESSAGE_PAIRS * 2
    if messages.length ≤ maxMessages then messages
    else messages.drop (messages.length - maxMessages)

/-- Sample user message used in concrete evaluations. -/
def msgU : Message := { id := "1", role := "user", content := "hi" }

/-- Sample assistant message used in concrete evaluations. -/
def msgA : Message := { id := "2", role := "assistant", content := "hello" }

example : truncateConversationHistory [msgU, msgA] "exa" = [msgU, msgU] := by decide

example : truncateConversationHistory [msgU] "exa" = [msgU] := by decide

example : truncateConversationHistory [msgA] "exa" = [msgA] := by decide

example :
    truncateConversationHistory
      [msgA, msgA, msgU, msgA, msgU, msgA, msgA, msgA, msgA, msgA, msgA] "llama" =
    [msgA, msgU, msgA, msgU, msgA, msgA, msgA, msgA, msgA, msgA] := by decide

/-- The non-exa (LLM) branch of the truncator in closed form. -/
lemma truncate_llm_eq (messages : List Message) (modelId : String)
    (hm : modelId ≠ "exa") :
    truncateConversationHistory messages modelId =
      if messages.length ≤ 10 then messages
      else messages.drop (messages.length - 10) := by
  simp [truncateConversationHistory, hm, K_MESSAGE_PAIRS]

/-- The exa branch of the truncator with the leading model test discharged. -/
lemma truncate_exa_eq (messages : List Message) :
    truncateConversationHistory messages "exa" =
      match (messages.drop (messages.length - 3)).getLast? with
      | none => messages.drop (messages.length - 3)
      | some lastMsg =>
        if lastMsg.role ≠ "user" then
          match (messages.filter (fun msg => msg.role == "user")).getLast? with
          | some lastUser =>
            (messages.drop (messages.length - 3)).dropLast ++ [lastUser]
          | none => messages.drop (messages.length - 3)
        else messages.drop (messages.length - 3) := by
  simp [truncateConversationHistory]

/-- C1: for a non-exa model and a history of more than `2K = 10` messages,
the truncator returns a list of exactly 10 messages equal to the last 10
elements of the input, in order. -/
theorem truncate_llm_last_ten (messages : List Message) (modelId : String)
    (hm : modelId ≠ "exa") (hlen : 10 < messages.length) :
    (truncateConversationHistory messages modelId).length = 10 ∧
    messages.take (messages.length - 10) ++
      truncateConversationHistory messages modelId = messages := by
  rw [truncate_llm_eq messages modelId hm, if_neg (by omega)]
  refine ⟨?_, List.take_append_drop _ _⟩
  rw [List.length_drop]
  omega

/-- Witness for C1 at a concrete 11-message history. -/
theorem truncate_llm_last_ten_witness :
    (truncateConversationHistory (List.replicate 11 msgU) "llama").length = 10 ∧
    (List.replicate 11 msgU).take ((List.replicate 11 msgU).length - 10) ++
      truncateConversationHistory (List.replicate 11 msgU) "llama" =
      List.replicate 11 msgU :=
  truncate_llm_last_ten (List.replicate 11 msgU) "llama" (by decide) (by decide)

/-- C2: under the exa rule, whenever the input contains at least one
user-role message, the result is non-empty and its last element has role
`user`. -/
theorem truncate_exa_last_user (messages : List Message)
    (h : ∃ m ∈ messages, m.role = "user") :
    truncateConversationHistory messages "exa" ≠ [] ∧
    (truncateConversationHistory messages "exa").getLast?.map
      (fun m => m.role) = some "user" := by
  obtain ⟨m, hmem, hrole⟩ := h
  have hne : messages ≠ [] := List.ne_nil_of_mem hmem
  have hlen : 0 < messages.length := List.length_pos.mpr hne
  have hrecne : messages.drop (messages.length - 3) ≠ [] := by
    rw [← List.length_pos, List.length_drop]
    omega
  obtain ⟨lastMsg, hl⟩ :
      ∃ l, (messages.drop (messages.length - 3)).getLast? = some l :=
    Option.isSome_iff_exists.mp (List.getLast?_isSome.mpr hrecne)
  rw [truncate_exa_eq, hl]
  dsimp only
  by_cases hu : lastMsg.role = "user"
  · rw [if_neg (not_not.mpr hu)]
    exact ⟨hrecne, by rw [hl, Option.map_some', hu]⟩
  · rw [if_pos hu]
    have hmf : m ∈ messages.filter (fun msg => msg.role == "user") :=
      List.mem_filter.mpr ⟨hmem, by simp [hrole]⟩
    obtain ⟨u, huf⟩ :
        ∃ u, (messages.filter (fun msg => msg.role == "user")).getLast? = some u :=
      Option.isSome_iff_exists.mp
        (List.getLast?_isSome.mpr (List.ne_nil_of_mem hmf))
    have humem : u ∈ messages.filter (fun msg => msg.role == "user") := by
      obtain ⟨ys, hys⟩ := List.getLast?_eq_some_iff.mp huf
      rw [hys]
      simp
    have hurole : u.role = "user" := by
      have := (List.mem_filter.mp humem).2
      simpa using this
    rw [huf]
    refine ⟨by simp, ?_⟩
    rw [List.getLast?_concat, Option.map_some', hurole]

/-- Witness for C2 at a concrete one-message history. -/
theorem truncate_exa_last_user_witness :
    truncateConversationHistory [msgU] "exa" ≠ [] ∧
    (truncateConversationHistory [msgU] "exa").getLast?.map
      (fun m => m.role) = some "user" :=
  truncate_exa_last_user [msgU] ⟨msgU, by simp, rfl⟩

/-- C3 counterexample: a 2-message history (length below both bounds) that
ends in an assistant message is NOT returned unchanged by the exa rule. -/
theorem truncate_exa_not_identity :
    truncateConversationHistory [msgU, msgA] "exa" ≠ [msgU, msgA] := by decide

/-- C3 amended: the truncator is the identity below the bound except in the
exa substitution case: for non-exa models every history of at most 10
messages is unchanged; for the exa rule a history of at most 3 messages is
unchanged provided its last message has role `user` or it contains no
user-role message at all. -/
theorem truncate_identity_under_bound :
    (∀ (messages : List Message) (modelId : String), modelId ≠ "exa" →
      messages.length ≤ 10 →
      truncateConversationHistory messages modelId = messages) ∧
    (∀ messages : List Message, messages.length ≤ 3 →
      ((∀ lm, messages.getLast? = some lm → lm.role = "user") ∨
        (∀ m ∈ messages, m.role ≠ "user")) →
      truncateConversationHistory messages "exa" = messages) := by
  constructor
  · intro messages modelId hm hlen
    rw [truncate_llm_eq messages modelId hm, if_pos hlen]
  · intro messages hlen hcond
    have hdrop : messages.drop (messages.length - 3) = messages := by
      have h3 : messages.length - 3 = 0 := by omega
      rw [h3, List.drop_zero]
    rw [truncate_exa_eq, hdrop]
    split
    · rfl
    · rename_i lastMsg heq
      by_cases hu : lastMsg.role = "user"
      · rw [if_neg (not_not.mpr hu)]
      · rcases hcond with hlast | hnone
        · exact absurd (hlast lastMsg heq) hu
        · have hfil : messages.filter (fun msg => msg.role == "user") = [] :=
            List.filter_eq_nil_iff.mpr (fun a ha => by simp [hnone a ha])
          rw [if_pos hu]
          simp [hfil]

/-- Witness for the amended C3 at concrete short histories. -/
theorem truncate_identity_under_bound_witness :
    truncateConversationHistory [msgU, msgA] "llama" = [msgU, msgA] ∧
    truncateConversationHistory [msgA, msgU] "exa" = [msgA, msgU] :=
  ⟨truncate_identity_under_bound.1 [msgU, msgA] "llama" (by decide) (by decide),
   truncate_identity_under_bound.2 [msgA, msgU] (by decide)
     (Or.inl (fun lm hlm => by
       simp only [List.getLast?] at hlm
       rw [← Option.some_inj.mp hlm]
       rfl))⟩

/-- C10: the exa substitution happens in place and can duplicate the most
recent user message (concretely on `[user, assistant]`), and the exa
result always has length `min 3 (input length)`. -/
theorem truncate_exa_duplicate_and_length :
    truncateConversationHistory [msgU, msgA] "exa" = [msgU, msgU] ∧
    ∀ messages : List Message,
      (truncateConversationHistory messages "exa").length =
        min 3 messages.length := by
  refine ⟨by decide, ?_⟩
  intro messages
  rw [truncate_exa_eq]
  have hld : (messages.drop (messages.length - 3)).length =
      messages.length - (messages.length - 3) := List.length_drop _ _
  split
  · rw [hld]; omega
  · rename_i lastMsg heq
    have hpos : 0 < (messages.drop (messages.length - 3)).length :=
      List.length_pos.mpr
        (List.getLast?_isSome.mp (by rw [heq]; rfl))
    split
    · split
      · rename_i u hu
        simp only [List.length_append, List.length_dropLast,
          List.length_singleton]
        rw [hld] at hpos ⊢
        omega
      · rw [hld]; omega
    · rw [hld]; omega

/-! ## Stream aggregator

The streaming loop of `fetchResponse` splits each chunk into lines, parses
each line as JSON, and folds the recognized fragment shapes into the
accumulated message state: a `citations` field replaces the stored
citations, a `file_uploaded` event is forwarded via callback and skips the
content handling of that line (`continue`), and a non-empty
`choices[0].delta.content` is appended to the running content, recording
the arrival time of the first such delta.  A line that fails to parse is
skipped.  We model one parsed line as `Option Fragment`, `none` standing
for a line that failed JSON parsing, and attach to each fragment the value
`Date.now()` would return when it is processed. -/

/-- A parsed stream line's recognized fields. -/
structure Fragment where
  citations : Option (List Citation) := none
  fileUploaded : Bool := false
  delta : Option String := none
  finishReason : Bool := false
  time : Int := 0
deriving DecidableEq, Repr

/-- A raw stream line: `none` if `JSON.parse` failed on it. -/
abbrev Line := Option Fragment

/-- The accumulator of the streaming loop: the `content` and `citations`
local variables and the `startTime` marker. -/
structure AggState where
  content : String := ""
  citations : Option (List Citation) := none
  startTime : Option Int := none
deriving DecidableEq, Repr

/-- One iteration of the `for (const line of lines)` body of
`fetchResponse`'s streaming loop. -/
def processLine (st : AggState) (line : Line) : AggState :=
  match line with
  | none => st
  | some f =>
    let st1 := match f.citations with
      | some cs => { st with citations := some cs }
      | none => st
    if f.fileUploaded then st1
    else
      match f.delta with
      | some d =>
        if d.isEmpty then st1
        else
          { st1 with
            content := st1.content ++ d,
            startTime := match st1.startTime with
              | some s => some s
              | none => some f.time }
      | none => st1

/-- The whole streaming loop over a sequence of lines. -/
def runStream (lines : List Line) : AggState :=
  lines.foldl processLine {}

/-- The effective content deltas of a line sequence, in order, with their
arrival times: deltas of unparsable lines, of `file_uploaded` lines and
empty-string deltas are dropped, exactly as the loop body drops them. -/
def effDeltas : List Line → List (String × Int)
  | [] => []
  | none :: ls => effDeltas ls
  | some f :: ls =>
    if f.fileUploaded then effDeltas ls
    else
      match f.delta with
      | some d => if d.isEmpty then effDeltas ls else (d, f.time) :: effDeltas ls
      | none => effDeltas ls

/-- The citation payloads of a line sequence, in order. -/
def citationEvents : List Line → List (List Citation)
  | [] => []
  | none :: ls => citationEvents ls
  | some f :: ls =>
    match f.citations with
    | some cs => cs :: citationEvents ls
    | none => citationEvents ls

/-- Left-to-right concatenation of deltas onto an accumulator. -/
def appendDeltas (cur : String) : List (String × Int) → String
  | [] => cur
  | (d, _) :: ds => appendDeltas (cur ++ d) ds

/-- The last of a list of citation events, or a default. -/
def lastEvent : List (List Citation) → Option (List Citation) →
    Option (List Citation)
  | [], dflt => dflt
  | c :: cs, _ => lastEvent cs (some c)

/-- First-delta arrival time: an already-set marker wins. -/
def firstTime (ds : List (String × Int)) (cur : Option Int) : Option Int :=
  match cur with
  | some s => some s
  | none => ds.head?.map Prod.snd

/-- Normal form of the aggregation fold: the final state is determined by
the effective delta sequence and the citation event sequence alone. -/
lemma foldl_processLine_eq (lines : List Line) (st : AggState) :
    lines.foldl processLine st =
      { content := appendDeltas st.content (effDeltas lines),
        citations := lastEvent (citationEvents lines) st.citations,
        startTime := firstTime (effDeltas lines) st.startTime } := by
  induction lines generalizing st with
  | nil =>
    rcases st with ⟨c, cit, stt⟩
    cases stt <;> rfl
  | cons l ls ih =>
    match l with
    | none =>
      rw [List.foldl_cons]
      show ls.foldl processLine st = _
      rw [ih st]
      rfl
    | some f =>
      rw [List.foldl_cons, ih (processLine st (some f))]
      rcases f with ⟨cits, fu, delta, fr, t⟩
      rcases cits with _ | cs <;> rcases fu with _ | _ <;>
        rcases delta with _ | d <;>
        simp only [processLine, effDeltas, citationEvents, appendDeltas,
          lastEvent, firstTime] <;>
      first
      | rfl
      | (by_cases hd : d.isEmpty <;>
          simp only [hd, if_true, if_false, Bool.false_eq_true,
            ite_true, ite_false] <;>
          rcases hst : st.startTime with _ | s <;>
          simp [appendDeltas, lastEvent, firstTime, hst])

/-- The final update after the stream ends: recompute the message from the
accumulated state, estimate tokens as `content.length / 4`, the elapsed
seconds as `(endTime - startTime) / 1000`, and tokens-per-second as their
quotient when the duration is positive.  The source guards the duration
with a truthiness test on `startTime`, so the duration is 0 not only when
no delta ever arrived (`startTime` still null) but also when the recorded
start timestamp is exactly the number 0, which is falsy. -/
def finalizeMessage (assistantMessage : Message) (st : AggState)
    (endTime : Int) : Message :=
  let estimatedTokens : ℚ :=
    if 0 < st.content.length then (st.content.length : ℚ) / 4 else 0
  let durationSeconds : ℚ :=
    match st.startTime with
    | some s => if s = 0 then 0 else ((endTime - s : Int) : ℚ) / 1000
    | none => 0
  let calculatedTps : ℚ :=
    if 0 < durationSeconds then estimatedTokens / durationSeconds else 0
  { assistantMessage with
    content := st.content
    citations := st.citations
    completed := true
    startTime := st.startTime
    endTime := some endTime
    tps := some calculatedTps }

/-- Citation fragment carrying the single citation `a`. -/
def citFragA : Fragment := { citations := some [{ url := "a" }] }

/-- Citation fragment carrying the single citation `b`. -/
def citFragB : Fragment := { citations := some [{ url := "b" }] }

/-- Content fragment used in concrete stream evaluations. -/
def contFrag : Fragment := { delta := some "ab", time := 7 }

/-- C4 counterexample: swapping two citation fragments preserves the
relative order of the (zero) content fragments, yet the final state
differs, and the citations of the second fragment replace — rather than
merge with — those of the first. -/
theorem stream_citations_not_merged :
    runStream [some citFragA, some citFragB] ≠
      runStream [some citFragB, some citFragA] ∧
    (runStream [some citFragA, some citFragB]).citations =
      some [{ url := "b" }] := by decide

/-- C4 amended: the final aggregation state is invariant under every
reordering that preserves both the relative order of the content fragments
and the relative order of the citation fragments; the final content is the
concatenation of the content deltas in arrival order, and the final
citations are those of the last citation fragment (replacement
semantics). -/
theorem stream_agg_projections :
    (∀ ls1 ls2 : List Line, effDeltas ls1 = effDeltas ls2 →
      citationEvents ls1 = citationEvents ls2 →
      runStream ls1 = runStream ls2) ∧
    (∀ ls : List Line, (runStream ls).content = appendDeltas "" (effDeltas ls)) ∧
    (∀ ls : List Line,
      (runStream ls).citations = lastEvent (citationEvents ls) none) := by
  refine ⟨?_, ?_, ?_⟩
  · intro ls1 ls2 hd hc
    unfold runStream
    rw [foldl_processLine_eq, foldl_processLine_eq, hd, hc]
  · intro ls
    unfold runStream
    rw [foldl_processLine_eq]
  · intro ls
    unfold runStream
    rw [foldl_processLine_eq]

/-- Witness for the amended C4: a content fragment and a citation fragment
arriving in either interleaving produce the same final state. -/
theorem stream_agg_projections_witness :
    runStream [some contFrag, some citFragA] =
      runStream [some citFragA, some contFrag] :=
  stream_agg_projections.1 _ _ rfl rfl

/-- Message object the aggregator updates in concrete evaluations. -/
def assistantMsg0 : Message := { id := "a1", role := "assistant", content := "" }

/-- The three stream fragments of the worked spec example. -/
def exampleLines : List Line :=
  [some { delta := some "Hel" }, some { delta := some "lo" },
   some { citations := some [{ url := "x" }] }]

/-- C5: the fragments `content "Hel"`, `content "lo"`, `citations [x]`
yield a final message with content `"Hello"`, citations `[x]`, and
`completed = true`. -/
theorem stream_example_hello_citation :
    (finalizeMessage assistantMsg0 (runStream exampleLines) 0).content =
      "Hello" ∧
    (finalizeMessage assistantMsg0 (runStream exampleLines) 0).citations =
      some [{ url := "x" }] ∧
    (finalizeMessage assistantMsg0 (runStream exampleLines) 0).completed =
      true :=
  ⟨rfl, rfl, rfl⟩

/-- C6: a line that fails JSON parsing leaves the state untouched, and
deleting it from the stream does not change the effect of any other
line. -/
theorem stream_malformed_line_skipped :
    (∀ st : AggState, processLine st none = st) ∧
    (∀ pre post : List Line,
      runStream (pre ++ none :: post) = runStream (pre ++ post)) := by
  refine ⟨fun st => rfl, ?_⟩
  intro pre post
  unfold runStream
  rw [List.foldl_append, List.foldl_append]
  rfl

/-- Stream whose single 4-character delta arrives at clock value 0. -/
def tpsLinesZero : List Line := [some { delta := some "abcd", time := 0 }]

/-- C8 counterexample: when the first delta arrives at clock value 0 the
elapsed time to the stream end at 2000 is positive and the content is
non-empty, yet the reported `tps` is 0, not `(length / 4) / elapsed`:
the truthiness guard treats the start timestamp 0 as absent. -/
theorem stream_tps_zero_start :
    (runStream tpsLinesZero).startTime = some 0 ∧
    0 < (runStream tpsLinesZero).content.length ∧
    (0 : Int) < 2000 - 0 ∧
    (finalizeMessage assistantMsg0 (runStream tpsLinesZero) 2000).tps = some 0 ∧
    (finalizeMessage assistantMsg0 (runStream tpsLinesZero) 2000).tps ≠
      some ((((runStream tpsLinesZero).content.length : ℚ) / 4) /
        (((2000 - 0 : Int) : ℚ) / 1000)) := by
  refine ⟨rfl, by decide, by decide, rfl, ?_⟩
  rw [show (finalizeMessage assistantMsg0 (runStream tpsLinesZero) 2000).tps =
        some 0 from rfl,
    show (runStream tpsLinesZero).content.length = 4 from rfl]
  intro h
  rw [Option.some_inj] at h
  norm_num at h

/-- C8 amended: with non-empty content, a NON-ZERO first-delta timestamp
and positive elapsed time, the reported `tps` is
`(content length / 4) / elapsed seconds`; with empty content, with zero
elapsed time, or with a start timestamp of exactly 0 (falsy in the
source's truthiness guard), it is 0. -/
theorem stream_tps_formula :
    (∀ (m : Message) (lines : List Line) (endTime s : Int),
      (runStream lines).startTime = some s → s ≠ 0 →
      0 < (runStream lines).content.length →
      (0 : Int) < endTime - s →
      (finalizeMessage m (runStream lines) endTime).tps =
        some ((((runStream lines).content.length : ℚ) / 4) /
          (((endTime - s : Int) : ℚ) / 1000))) ∧
    (∀ (m : Message) (lines : List Line) (endTime : Int),
      (runStream lines).content.length = 0 →
      (finalizeMessage m (runStream lines) endTime).tps = some 0) ∧
    (∀ (m : Message) (lines : List Line) (s : Int),
      (runStream lines).startTime = some s →
      (finalizeMessage m (runStream lines) s).tps = some 0) ∧
    (∀ (m : Message) (lines : List Line) (endTime : Int),
      (runStream lines).startTime = some 0 →
      (finalizeMessage m (runStream lines) endTime).tps = some 0) := by
  refine ⟨?_, ?_, ?_, ?_⟩
  · intro m lines e s hst hs hc hd
    simp only [finalizeMessage, hst]
    rw [if_neg hs, if_pos hc]
    have hdq : (0 : ℚ) < ((e - s : Int) : ℚ) / 1000 := by
      apply div_pos _ (by norm_num)
      exact_mod_cast hd
    rw [if_pos hdq]
  · intro m lines e hc
    simp [finalizeMessage, hc, zero_div]
  · intro m lines s hst
    simp only [finalizeMessage, hst]
    rcases eq_or_ne s 0 with h0 | h0
    · simp [h0]
    · rw [if_neg h0, sub_self]
      norm_num
  · intro m lines e hst
    simp only [finalizeMessage, hst]
    simp

/-- Stream whose single 4-character delta arrives at clock value 5. -/
def tpsLinesFive : List Line := [some { delta := some "abcd", time := 5 }]

/-- Witness for the amended C8: one 4-character delta arriving at the
non-zero time 5 with the stream ending at time 2005. -/
theorem stream_tps_formula_witness :
    (finalizeMessage assistantMsg0 (runStream tpsLinesFive) 2005).tps =
      some ((((runStream tpsLinesFive).content.length : ℚ) / 4) /
        (((2005 - 5 : Int) : ℚ) / 1000)) :=
  stream_tps_formula.1 assistantMsg0 tpsLinesFive 2005 5 rfl (by decide)
    (by decide) (by decide)

/-! ## Rate-limit (429) wait-time extraction

On a 429 JSON error body, `fetchResponse` starts from a default wait time
of 30 seconds, reads `errorData.error.message` when present, and runs the
pattern `try again in (\d+\.?\d*)([ms]+)` over it.  On a match, the
captured number is converted with `parseFloat`, divided by 1000 and
rounded up with `Math.ceil` when the captured unit is exactly `ms`, and
rounded up directly otherwise.  The pattern needs no backtracking (digits,
the dot and the unit letters are disjoint character classes), so maximal
munch at the leftmost matching position is its exact semantics, which is
what the char-list matcher below implements. -/

/-- Numeric value of a digit run. -/
def digitsToNat (ds : List Char) : Nat :=
  ds.foldl (fun acc c => acc * 10 + (c.toNat - Char.toNat '0')) 0

/-- `parseFloat` of the captured group `intPart [. fracPart]`. -/
def parsedNumber (intPart fracPart : List Char) : ℚ :=
  (digitsToNat intPart : ℚ) + (digitsToNat fracPart : ℚ) / (10 : ℚ) ^ fracPart.length

/-- The unit character class of the pattern. -/
def isMs (c : Char) : Bool := c = 'm' || c = 's'

/-- Match a literal string, returning the remaining characters. -/
def dropLiteral : List Char → List Char → Option (List Char)
  | [], rest => some rest
  | _ :: _, [] => none
  | c :: cs, d :: ds => if c = d then dropLiteral cs ds else none

/-- Try the wait-time pattern anchored at the head of `s`: the literal
`try again in `, one or more digits, an optional dot, further digits, and
one or more of the letters `m`/`s`; yields the two captured digit groups
and the captured unit text. -/
def matchWaitAt (s : List Char) : Option ((List Char × List Char) × String) :=
  match dropLiteral "try again in ".toList s with
  | none => none
  | some r0 =>
    let d1 := r0.takeWhile Char.isDigit
    let r1 := r0.dropWhile Char.isDigit
    if d1.isEmpty then none
    else
      let d2 :=
        match r1 with
        | '.' :: rs => rs.takeWhile Char.isDigit
        | _ => []
      let r2 :=
        match r1 with
        | '.' :: rs => rs.dropWhile Char.isDigit
        | _ => r1
      let u := r2.takeWhile isMs
      if u.isEmpty then none
      else some ((d1, d2), String.mk u)

/-- Leftmost match of the wait-time pattern over the whole message. -/
def findWaitMatch : List Char → Option ((List Char × List Char) × String)
  | [] => none
  | c :: cs =>
    match matchWaitAt (c :: cs) with
    | some r => some r
    | none => findWaitMatch cs

/-- The suggested wait time in seconds computed from a 429 error message:
`Math.ceil(v / 1000)` when the captured unit is `ms`, `Math.ceil(v)` for
any other captured unit, and the 30-second default when the pattern does
not match. -/
def computeWaitTime (message : String) : ℤ :=
  match findWaitMatch message.toList with
  | some ((d1, d2), u) =>
    let v := parsedNumber d1 d2
    if u = "ms" then ⌈v / 1000⌉ else ⌈v⌉
  | none => 30

/-- The JSON error body of a non-2xx response, as far as the 429 handler
reads it. -/
structure ApiErrorBody where
  message : Option String := none
deriving DecidableEq, Repr

structure ApiErrorData where
  error : Option ApiErrorBody := none
deriving DecidableEq, Repr

/-- The rate-limit condition reported for a 429 response (the custom
`RateLimitError`'s `waitTime` and `details` fields). -/
structure RateLimitInfo where
  waitTime : ℤ
  details : String
deriving DecidableEq, Repr

/-- The 429 branch of `fetchResponse`'s error handling: keep the defaults
unless `errorData.error.message` is present and non-empty (JS
truthiness), in which case the message text is scanned for the wait-time
hint. -/
def handle429 (errorData : ApiErrorData) : RateLimitInfo :=
  let dflt : RateLimitInfo :=
    { waitTime := 30, details := "Rate limit reached. Please try again later." }
  match errorData.error with
  | some e =>
    match e.message with
    | some msg =>
      if msg.isEmpty then dflt
      else { waitTime := computeWaitTime msg, details := msg }
    | none => dflt
  | none => dflt

/-- C7: the body `{error: {message: "try again in 1500ms"}}` is reported
with a wait time of exactly 2 seconds, and in general a matched hint with
unit `ms` yields `ceil(v / 1000)` seconds while a matched hint with unit
`s` yields `ceil(v)` seconds. -/
theorem rate_limit_wait_time :
    (handle429 { error := some { message := some "try again in 1500ms" } }).waitTime = 2 ∧
    (∀ (msg : String) (d1 d2 : List Char),
      findWaitMatch msg.toList = some ((d1, d2), "ms") →
      computeWaitTime msg = ⌈parsedNumber d1 d2 / 1000⌉) ∧
    (∀ (msg : String) (d1 d2 : List Char),
      findWaitMatch msg.toList = some ((d1, d2), "s") →
      computeWaitTime msg = ⌈parsedNumber d1 d2⌉) := by
  refine ⟨?_, ?_, ?_⟩
  · show computeWaitTime "try again in 1500ms" = 2
    have hg : findWaitMatch "try again in 1500ms".toList =
        some ((['1', '5', '0', '0'], []), "ms") := by decide
    unfold computeWaitTime
    rw [hg]
    have h1 : digitsToNat ['1', '5', '0', '0'] = 1500 := rfl
    have h2 : digitsToNat ([] : List Char) = 0 := rfl
    simp only [parsedNumber, h1, h2, List.length_nil, pow_zero]
    norm_num
    rw [Int.ceil_eq_iff]
    norm_num
  · intro msg d1 d2 h
    unfold computeWaitTime
    rw [h]
    simp
  · intro msg d1 d2 h
    unfold computeWaitTime
    rw [h]
    simp

/-- Witness for C7 at concrete hint messages in both units. -/
theorem rate_limit_wait_time_witness :
    computeWaitTime "try again in 500ms" =
      ⌈parsedNumber ['5', '0', '0'] [] / 1000⌉ ∧
    computeWaitTime "try again in 30s" = ⌈parsedNumber ['3', '0'] []⌉ :=
  ⟨rate_limit_wait_time.2.1 "try again in 500ms" _ _ (by decide),
   rate_limit_wait_time.2.2 "try again in 30s" _ _ (by decide)⟩

/-! ## Provider endpoint routing -/

/-- An entry of the static model table (`models.json`), as far as the
router reads it. -/
structure ModelConfig where
  id : String
  toolCallType : Option String := none
  providerId : Option String := none
deriving DecidableEq, Repr

/-- The upstream API endpoints `fetchResponse` can select. -/
inductive Endpoint where
  | exaanswer
  | openrouter
  | gemini
  | cerebras
  | xai
  | groq
deriving DecidableEq, Repr

/-- Does `s` start with `pat`, character-wise. -/
def charsStartWith : List Char → List Char → Bool
  | _, [] => true
  | [], _ :: _ => false
  | c :: cs, d :: ds => c = d && charsStartWith cs ds

/-- Does `s` contain `pat` as a contiguous run. -/
def charsContain : List Char → List Char → Bool
  | [], pat => pat.isEmpty
  | c :: cs, pat => charsStartWith (c :: cs) pat || charsContain cs pat

/-- `String.prototype.includes`. -/
def stringIncludes (s pat : String) : Bool := charsContain s.toList pat.toList

/-- The endpoint selection of `fetchResponse`: look the selected model up
in the static table, then dispatch on the exa id, the openrouter marker
(or the hardcoded `gemma3-27b` id), a `gemini` substring, and the
`cerebras` / `xai` provider ids, defaulting to the groq endpoint. -/
def routeEndpoint (models : List ModelConfig) (selectedModel : String) :
    Endpoint :=
  let modelConfig := models.find? (fun m => m.id == selectedModel)
  if selectedModel = "exa" then .exaanswer
  else if modelConfig.bind ModelConfig.toolCallType = some "openrouter" ∨
      selectedModel = "gemma3-27b" then .openrouter
  else if stringIncludes selectedModel "gemini" then .gemini
  else if modelConfig.bind ModelConfig.providerId = some "cerebras" then .cerebras
  else if modelConfig.bind ModelConfig.providerId = some "xai" then .xai
  else .groq

/-- C9: a model identifier that is not the exa id, not marked for
openrouter (nor the hardcoded `gemma3-27b`), does not contain `gemini`,
and is not a cerebras or xai model, is routed to the groq endpoint — for
every model table, so routing never fails. -/
theorem route_default_groq (models : List ModelConfig) (selectedModel : String)
    (h1 : selectedModel ≠ "exa")
    (h2 : ¬((models.find? (fun m => m.id == selectedModel)).bind
        ModelConfig.toolCallType = some "openrouter" ∨
        selectedModel = "gemma3-27b"))
    (h3 : stringIncludes selectedModel "gemini" = false)
    (h4 : (models.find? (fun m => m.id == selectedModel)).bind
        ModelConfig.providerId ≠ some "cerebras")
    (h5 : (models.find? (fun m => m.id == selectedModel)).bind
        ModelConfig.providerId ≠ some "xai") :
    routeEndpoint models selectedModel = Endpoint.groq := by
  simp only [routeEndpoint]
  rw [if_neg h1, if_neg h2, if_neg (by simp [h3]), if_neg h4, if_neg h5]

/-- Witness for C9: an unknown model id over an empty table routes to
groq. -/
theorem route_default_groq_witness :
    routeEndpoint [] "mistral" = Endpoint.groq :=
  route_default_groq [] "mistral" (by decide) (by decide) (by decide)
    (by decide) (by decide)

end ExaChat
